import Mathlib

/-!
# terraform-s3-dir: the traversal of `main.go` as Lean definitions

`main.go` walks a directory with `filepath.Walk`; for every entry the callback
decides whether to skip it and otherwise adds one descriptor to `resourcesMap`.
After the walk the nested map is written to standard output by `encoding/json`.

Go strings are byte sequences: they are modelled as lists of natural numbers
(bytes).  Functions of the Go standard library that the program calls are
modelled after the library (Go 1.22, Unix), under the names they have there.
What the program gets from its surroundings is collected in the record `Env`:
the file system, the MIME table of the system, the Unicode tables of `strconv`,
and the sniffing of `net/http`, whose table of signatures changes between
releases (`DetectContentType` below is the one of Go 1.22).
-/

namespace S3Dir

/-! ## Go strings -/

/-- A Go string: a sequence of bytes. -/
abbrev GoString := List Nat

/-- The constant `utf8.RuneError` (U+FFFD). -/
def RuneError : Nat := 0xFFFD

/-- The function `utf8.AppendRune` applied to an empty buffer: the UTF-8 bytes of a rune. -/
def AppendRune (r : Nat) : GoString :=
  if r < 0x80 then [r]
  else if r < 0x800 then [0xC0 ||| (r >>> 6), 0x80 ||| (r &&& 0x3F)]
  else if 0x10FFFF < r ∨ (0xD800 ≤ r ∧ r ≤ 0xDFFF) then [0xEF, 0xBF, 0xBD]
  else if r < 0x10000 then
    [0xE0 ||| (r >>> 12), 0x80 ||| ((r >>> 6) &&& 0x3F), 0x80 ||| (r &&& 0x3F)]
  else
    [0xF0 ||| (r >>> 18), 0x80 ||| ((r >>> 12) &&& 0x3F),
     0x80 ||| ((r >>> 6) &&& 0x3F), 0x80 ||| (r &&& 0x3F)]

/-- The bytes of a string literal of the Go source (its UTF-8 encoding). -/
def str (s : String) : GoString := s.toList.flatMap fun c => AppendRune c.toNat

/-- The function `utf8.DecodeRuneInString`: the first rune of `s` and its width in bytes.
An empty string gives `(RuneError, 0)`, a malformed encoding `(RuneError, 1)`. -/
def DecodeRune : GoString → Nat × Nat
  | [] => (RuneError, 0)
  | s0 :: t =>
    if s0 < 0x80 then (s0, 1)
    else if s0 < 0xC2 ∨ 0xF4 < s0 then (RuneError, 1)
    else
      let lo := if s0 = 0xE0 then 0xA0 else if s0 = 0xF0 then 0x90 else 0x80
      let hi := if s0 = 0xED then 0x9F else if s0 = 0xF4 then 0x8F else 0xBF
      let cont := fun (b : Nat) => decide (0x80 ≤ b ∧ b ≤ 0xBF)
      if s0 < 0xE0 then
        match t with
        | s1 :: _ =>
          if lo ≤ s1 ∧ s1 ≤ hi then (((s0 &&& 0x1F) <<< 6) ||| (s1 &&& 0x3F), 2)
          else (RuneError, 1)
        | _ => (RuneError, 1)
      else if s0 < 0xF0 then
        match t with
        | s1 :: s2 :: _ =>
          if lo ≤ s1 ∧ s1 ≤ hi ∧ cont s2 then
            (((s0 &&& 0x0F) <<< 12) ||| ((s1 &&& 0x3F) <<< 6) ||| (s2 &&& 0x3F), 3)
          else (RuneError, 1)
        | _ => (RuneError, 1)
      else
        match t with
        | s1 :: s2 :: s3 :: _ =>
          if lo ≤ s1 ∧ s1 ≤ hi ∧ cont s2 ∧ cont s3 then
            (((s0 &&& 0x07) <<< 18) ||| ((s1 &&& 0x3F) <<< 12) ||| ((s2 &&& 0x3F) <<< 6)
              ||| (s3 &&& 0x3F), 4)
          else (RuneError, 1)
        | _ => (RuneError, 1)

/-- The digits of `%x` and of the escapes of `strconv` and `encoding/json`. -/
def lowerhex (n : Nat) : Nat :=
  if n % 16 < 10 then 48 + n % 16 else 87 + n % 16

/-- The verb `%x` of `fmt` on a byte slice: two lowercase hexadecimal digits per byte. -/
def hexString (bs : List Nat) : GoString :=
  bs.flatMap fun b => [lowerhex (b / 16), lowerhex b]

/-- A Go `error` value. The program only ever compares an error with `io.EOF`
and prints its text with `%s`. -/
inductive GoError where
  | EOF : GoError
  | other (text : GoString) : GoError
  deriving DecidableEq, Repr

/-- The method `Error()` of an error: its text. -/
def GoError.Error : GoError → GoString
  | .EOF => str "EOF"
  | .other text => text

/-! ## package strings, package path -/

/-- The constant `filepath.Separator` on Unix. -/
def Separator : Nat := 47

/-- The function `strings.ContainsRune` for a rune below `utf8.RuneSelf`: a byte search. -/
def ContainsRune (s : GoString) (r : Nat) : Bool := s.contains r

/-- The function `strings.Split` for a separator of one byte. -/
def Split (sep : Nat) : GoString → List GoString
  | [] => [[]]
  | b :: rest =>
    if b = sep then [] :: Split sep rest
    else
      match Split sep rest with
      | [] => [[b]]
      | seg :: segs => (b :: seg) :: segs

/-- The function `strings.HasSuffix`. -/
def HasSuffix (s suffix : GoString) : Bool := suffix.isSuffixOf s

/-- The function `strings.HasPrefix`. -/
def HasPrefix (s pre : GoString) : Bool := pre.isPrefixOf s

/-- The loop of `path.Ext` on the reversed path: `acc` holds the bytes already passed. -/
def extAux : GoString → GoString → GoString
  | [], _ => []
  | c :: rest, acc =>
    if c = 47 then []
    else if c = 46 then c :: acc
    else extAux rest (c :: acc)

/-- The function `path.Ext`: the suffix beginning at the final dot in the final
slash-separated element of the path, empty if there is no dot. -/
def Ext (path : GoString) : GoString := extAux path.reverse []

/-! ## filepath.Match -/

/-- The error `filepath.ErrBadPattern`. -/
def ErrBadPattern : GoError := .other (str "syntax error in pattern")

/-- The index loop of `scanChunk`: the length of the chunk up to the next star that
is outside a character class. -/
def scanIdx (inrange : Bool) : GoString → Nat
  | [] => 0
  | c :: rest =>
    if c = 92 then
      match rest with
      | [] => 1
      | _ :: rest2 => 2 + scanIdx inrange rest2
    else if c = 91 then 1 + scanIdx true rest
    else if c = 93 then 1 + scanIdx false rest
    else if c = 42 then (if inrange then 1 + scanIdx inrange rest else 0)
    else 1 + scanIdx inrange rest

/-- The function `scanChunk` of `path/filepath`: leading stars, the chunk, the rest. -/
def scanChunk (pattern : GoString) : Bool × GoString × GoString :=
  let p := pattern.dropWhile (· = 42)
  let star := decide (p.length < pattern.length)
  let i := scanIdx false p
  (star, p.take i, p.drop i)

/-- The function `getEsc` of `path/filepath`; `none` stands for `ErrBadPattern`. -/
def getEsc (chunk : GoString) : Option (Nat × GoString) :=
  match chunk with
  | [] => none
  | c :: rest =>
    if c = 45 ∨ c = 93 then none
    else
      let chunk1 := if c = 92 then rest else chunk
      if chunk1 = [] then none
      else
        let (r, n) := DecodeRune chunk1
        if r = RuneError ∧ n = 1 then none
        else
          let nchunk := chunk1.drop n
          if nchunk = [] then none else some (r, nchunk)

/-- The loop over the ranges of a character class in `matchChunk`; `none` stands
for `ErrBadPattern`. Every round consumes a byte of the chunk, so a fuel above
the length of the chunk is never used up. -/
def classLoop : Nat → Nat → GoString → Bool → Nat → Option (Bool × GoString)
  | 0, _, _, _, _ => none
  | fuel + 1, r, chunk, m, nrange =>
    let body : Option (Bool × GoString) :=
      match getEsc chunk with
      | none => none
      | some (lo, chunk1) =>
        match chunk1 with
        | 45 :: chunk2 =>
          match getEsc chunk2 with
          | none => none
          | some (hi, chunk3) =>
            classLoop fuel r chunk3 (m || decide (lo ≤ r ∧ r ≤ hi)) (nrange + 1)
        | _ => classLoop fuel r chunk1 (m || decide (lo ≤ r ∧ r ≤ lo)) (nrange + 1)
    match chunk with
    | 93 :: rest => if 0 < nrange then some (m, rest) else body
    | _ => body

/-- The loop of `matchChunk`, with the flag `failed`. Every round consumes a byte of
the chunk, so a fuel above the length of the chunk is never used up. -/
def matchChunkLoop : Nat → GoString → GoString → Bool → GoString × Bool × Option GoError
  | 0, _, _, _ => ([], false, none)
  | fuel + 1, chunk, s, failed0 =>
    match chunk with
    | [] => if failed0 then ([], false, none) else (s, true, none)
    | c :: chunk1 =>
      let failed := failed0 || s.isEmpty
      let literal := fun (c1 : Nat) (chunkRest : GoString) =>
        if failed then matchChunkLoop fuel chunkRest s failed
        else matchChunkLoop fuel chunkRest (s.drop 1) (decide (some c1 ≠ s.head?))
      if c = 91 then
        let rs : Nat × GoString :=
          if failed then (0, s) else ((DecodeRune s).1, s.drop (DecodeRune s).2)
        let neg : Bool × GoString :=
          match chunk1 with
          | 94 :: rest => (true, rest)
          | _ => (false, chunk1)
        match classLoop (neg.2.length + 1) rs.1 neg.2 false 0 with
        | none => ([], false, some ErrBadPattern)
        | some (m, chunk3) => matchChunkLoop fuel chunk3 rs.2 (failed || (m == neg.1))
      else if c = 63 then
        if failed then matchChunkLoop fuel chunk1 s failed
        else matchChunkLoop fuel chunk1 (s.drop (DecodeRune s).2) (decide (s.head? = some Separator))
      else if c = 92 then
        match chunk1 with
        | [] => ([], false, some ErrBadPattern)
        | c1 :: chunk2 => literal c1 chunk2
      else literal c chunk1

/-- The function `matchChunk` of `path/filepath`: the rest of `s`, whether the chunk
matched at the start of `s`, and the pattern error if any. -/
def matchChunk (chunk s : GoString) : GoString × Bool × Option GoError :=
  matchChunkLoop (chunk.length + 1) chunk s false

/-- The inner loop of `Match` after a star: skip `i + 1` bytes of the name, never a
separator. The first component is the new name when the outer loop continues. -/
def starLoop (chunk rest : GoString) : GoString → Option GoString × Option GoError
  | [] => (none, none)
  | c :: name1 =>
    if c = Separator then (none, none)
    else
      match matchChunk chunk name1 with
      | (t, true, _) =>
        if rest.isEmpty && !t.isEmpty then starLoop chunk rest name1 else (some t, none)
      | (_, false, some e) => (none, some e)
      | (_, false, none) => starLoop chunk rest name1

/-- The outer loop `Pattern:` of `filepath.Match`. Every round consumes a byte of the
pattern, so a fuel above the length of the pattern is never used up. -/
def MatchLoop : Nat → GoString → GoString → Bool × Option GoError
  | 0, _, _ => (false, none)
  | fuel + 1, pattern, name =>
    if pattern.isEmpty then (name.isEmpty, none)
    else
      match scanChunk pattern with
      | (star, chunk, rest) =>
        if star && chunk.isEmpty then (!ContainsRune name Separator, none)
        else
          match matchChunk chunk name with
          | (t, ok, err) =>
            if ok && (t.isEmpty || !rest.isEmpty) then MatchLoop fuel rest t
            else if err.isSome then (false, err)
            else if star then
              match starLoop chunk rest name with
              | (some t1, _) => MatchLoop fuel rest t1
              | (none, some e) => (false, some e)
              | (none, none) => (false, none)
            else (false, none)

/-- The function `filepath.Match` (Unix): whether `name` matches the shell pattern,
and the pattern error if any. -/
def Match (pattern name : GoString) : Bool × Option GoError :=
  MatchLoop (pattern.length + 1) pattern name

/-! ## crypto/sha1 -/

/-- The function `bits.RotateLeft32`. -/
def rotl (n x : Nat) : Nat := ((x <<< n) ||| (x >>> (32 - n))) % 2 ^ 32

/-- The four bytes of a 32-bit word, most significant first. -/
def be32 (w : Nat) : List Nat :=
  [(w >>> 24) % 256, (w >>> 16) % 256, (w >>> 8) % 256, w % 256]

/-- The padding of SHA-1: the byte `0x80`, zero bytes up to 56 modulo 64, and the
length of the message in bits as a 64-bit big-endian number. -/
def sha1Pad (msg : List Nat) : List Nat :=
  msg ++ 0x80 :: List.replicate ((119 - msg.length % 64) % 64) 0
    ++ be32 ((8 * msg.length / 2 ^ 32) % 2 ^ 32) ++ be32 ((8 * msg.length) % 2 ^ 32)

/-- The sixteen big-endian words of a 64-byte block. -/
def blockWords : Nat → List Nat → List Nat
  | 0, _ => []
  | n + 1, p =>
    (((p.getD 0 0 % 256) <<< 24) ||| ((p.getD 1 0 % 256) <<< 16) ||| ((p.getD 2 0 % 256) <<< 8)
      ||| (p.getD 3 0 % 256)) :: blockWords n (p.drop 4)

/-- The message schedule, newest word first: `n` further words
`w[t] = rotl 1 (w[t-3] ^ w[t-8] ^ w[t-14] ^ w[t-16])`. -/
def schedule : Nat → List Nat → List Nat
  | 0, rev => rev
  | n + 1, rev =>
    schedule n (rotl 1 (rev.getD 2 0 ^^^ rev.getD 7 0 ^^^ rev.getD 13 0 ^^^ rev.getD 15 0) :: rev)

/-- One of the eighty rounds of the block function of SHA-1. -/
def sha1Round (t w : Nat) (s : Nat × Nat × Nat × Nat × Nat) : Nat × Nat × Nat × Nat × Nat :=
  match s with
  | (a, b, c, d, e) =>
    let f :=
      if t < 20 then (b &&& c) ||| ((b ^^^ 0xFFFFFFFF) &&& d)
      else if t < 40 then b ^^^ c ^^^ d
      else if t < 60 then ((b ||| c) &&& d) ||| (b &&& c)
      else b ^^^ c ^^^ d
    let k :=
      if t < 20 then 0x5A827999
      else if t < 40 then 0x6ED9EBA1
      else if t < 60 then 0x8F1BBCDC
      else 0xCA62C1D6
    ((rotl 5 a + f + e + w + k) % 2 ^ 32, a, rotl 30 b, c, d)

/-- The eighty rounds over the schedule, `t` counting the rounds. -/
def sha1Rounds : Nat → List Nat → Nat × Nat × Nat × Nat × Nat → Nat × Nat × Nat × Nat × Nat
  | _, [], s => s
  | t, w :: ws, s => sha1Rounds (t + 1) ws (sha1Round t w s)

/-- The block function of SHA-1 on one 64-byte block. -/
def sha1Block (h : Nat × Nat × Nat × Nat × Nat) (p : List Nat) : Nat × Nat × Nat × Nat × Nat :=
  match h, sha1Rounds 0 (schedule 64 (blockWords 16 p).reverse).reverse h with
  | (h0, h1, h2, h3, h4), (a, b, c, d, e) =>
    ((h0 + a) % 2 ^ 32, (h1 + b) % 2 ^ 32, (h2 + c) % 2 ^ 32, (h3 + d) % 2 ^ 32, (h4 + e) % 2 ^ 32)

/-- The block function over `n` consecutive blocks. -/
def sha1Blocks : Nat → Nat × Nat × Nat × Nat × Nat → List Nat → Nat × Nat × Nat × Nat × Nat
  | 0, h, _ => h
  | n + 1, h, p => sha1Blocks n (sha1Block h (p.take 64)) (p.drop 64)

/-- The digest of `crypto/sha1`: what `Sum(nil)` returns on a new hash after one
`Write` of `msg`. Twenty bytes. -/
def sha1Sum (msg : List Nat) : List Nat :=
  match sha1Blocks ((sha1Pad msg).length / 64)
      (0x67452301, 0xEFCDAB89, 0x98BADCFE, 0x10325476, 0xC3D2E1F0) (sha1Pad msg) with
  | (h0, h1, h2, h3, h4) => be32 h0 ++ be32 h1 ++ be32 h2 ++ be32 h3 ++ be32 h4

/-! ## strconv.Quote and the verb %q -/

/-- The function `strconv.IsPrint`; `tables` stands for the Unicode tables of
`strconv`, which decide the runes above Latin-1. -/
def IsPrint (tables : Nat → Bool) (r : Nat) : Bool :=
  if r ≤ 0xFF then
    if 0x20 ≤ r ∧ r ≤ 0x7E then true
    else if 0xA1 ≤ r then decide (r ≠ 0xAD)
    else false
  else tables r

/-- The function `appendEscapedRune` of `strconv` for the double quote, neither
ASCII-only nor graphic-only. -/
def appendEscapedRune (tables : Nat → Bool) (r : Nat) : GoString :=
  if r = 34 ∨ r = 92 then [92, r]
  else if IsPrint tables r then AppendRune r
  else if r = 7 then [92, 97]
  else if r = 8 then [92, 98]
  else if r = 12 then [92, 102]
  else if r = 10 then [92, 110]
  else if r = 13 then [92, 114]
  else if r = 9 then [92, 116]
  else if r = 11 then [92, 118]
  else if r < 32 ∨ r = 0x7F then [92, 120, lowerhex (r / 16), lowerhex r]
  else if 0x10FFFF < r ∨ (0xD800 ≤ r ∧ r ≤ 0xDFFF) then [92, 117, 102, 102, 102, 100]
  else if r < 0x10000 then
    [92, 117, lowerhex (r >>> 12), lowerhex (r >>> 8), lowerhex (r >>> 4), lowerhex r]
  else
    [92, 85, lowerhex (r >>> 28), lowerhex (r >>> 24), lowerhex (r >>> 20), lowerhex (r >>> 16),
      lowerhex (r >>> 12), lowerhex (r >>> 8), lowerhex (r >>> 4), lowerhex r]

/-- The loop of `appendQuotedWith`. Every round consumes a byte of the string, so
the length of the string is fuel enough. -/
def quoteLoop (tables : Nat → Bool) : Nat → GoString → GoString
  | 0, _ => []
  | fuel + 1, s =>
    match s with
    | [] => []
    | s0 :: _ =>
      let rw : Nat × Nat := if s0 < 0x80 then (s0, 1) else DecodeRune s
      if rw.2 = 1 ∧ rw.1 = RuneError then
        [92, 120, lowerhex (s0 / 16), lowerhex s0] ++ quoteLoop tables fuel (s.drop 1)
      else appendEscapedRune tables rw.1 ++ quoteLoop tables fuel (s.drop rw.2)

/-- The function `strconv.Quote`, which the verb `%q` of `fmt` applies to a string. -/
def Quote (tables : Nat → Bool) (s : GoString) : GoString :=
  34 :: quoteLoop tables s.length s ++ [34]

/-! ## net/http.DetectContentType -/

/-- The signatures of `net/http/sniff.go`. -/
inductive sniffSig where
  | htmlSig (h : List Nat) : sniffSig
  | maskedSig (mask pat : List Nat) (skipWS : Bool) (ct : GoString) : sniffSig
  | exactSig (sig : List Nat) (ct : GoString) : sniffSig
  | mp4Sig : sniffSig
  | textSig : sniffSig

/-- The function `isWS` of `net/http/sniff.go`. -/
def isWS (b : Nat) : Bool := b = 9 ∨ b = 10 ∨ b = 12 ∨ b = 13 ∨ b = 32

/-- The function `isTT` of `net/http/sniff.go`: a tag-terminating byte. -/
def isTT (b : Nat) : Bool := b = 32 ∨ b = 62

/-- The loop of `htmlSig.match`: the signature against the data, letters of the
data folded to upper case where the signature has a capital. -/
def htmlPrefix : List Nat → List Nat → Bool
  | [], _ => true
  | _ :: _, [] => false
  | b :: h, db :: data =>
    (b == (if 65 ≤ b ∧ b ≤ 90 then db &&& 0xDF else db)) && htmlPrefix h data

/-- The loop of `maskedSig.match`. -/
def maskedPrefix : List Nat → List Nat → List Nat → Bool
  | [], _, _ => true
  | pb :: pat, m :: mask, d :: data => ((d &&& m) == pb) && maskedPrefix pat mask data
  | _ :: _, _, _ => false

/-- The method `match` of a signature: the content type, or the empty string. -/
def sniffSig.match (data : List Nat) (firstNonWS : Nat) : sniffSig → GoString
  | .htmlSig h =>
    let d := data.drop firstNonWS
    if d.length < h.length + 1 then []
    else if !htmlPrefix h d then []
    else if !isTT (d.getD h.length 0) then []
    else str "text/html; charset=utf-8"
  | .maskedSig mask pat skipWS ct =>
    let d := if skipWS then data.drop firstNonWS else data
    if pat.length ≠ mask.length then []
    else if d.length < pat.length then []
    else if maskedPrefix pat mask d then ct else []
  | .exactSig sig ct => if sig.isPrefixOf data then ct else []
  | .mp4Sig =>
    if data.length < 12 then []
    else
      let boxSize := (data.getD 0 0 % 256) * 2 ^ 24 + (data.getD 1 0 % 256) * 2 ^ 16
        + (data.getD 2 0 % 256) * 2 ^ 8 + data.getD 3 0 % 256
      if data.length < boxSize ∨ boxSize % 4 ≠ 0 then []
      else if (data.drop 4).take 4 ≠ str "ftyp" then []
      else if (List.range (boxSize / 4)).any fun i =>
          decide (2 ≤ i ∧ i ≠ 3) && decide ((data.drop (4 * i)).take 3 = str "mp4")
        then str "video/mp4"
      else []
  | .textSig =>
    if (data.drop firstNonWS).any fun b =>
        decide (b ≤ 0x08 ∨ b = 0x0B ∨ (0x0E ≤ b ∧ b ≤ 0x1A) ∨ (0x1C ≤ b ∧ b ≤ 0x1F))
      then []
    else str "text/plain; charset=utf-8"

/-- The table `sniffSignatures` of `net/http/sniff.go`. -/
def sniffSignatures : List sniffSig :=
  [ .htmlSig (str "<!DOCTYPE HTML"), .htmlSig (str "<HTML"), .htmlSig (str "<HEAD"),
    .htmlSig (str "<SCRIPT"), .htmlSig (str "<IFRAME"), .htmlSig (str "<H1"),
    .htmlSig (str "<DIV"), .htmlSig (str "<FONT"), .htmlSig (str "<TABLE"),
    .htmlSig (str "<A"), .htmlSig (str "<STYLE"), .htmlSig (str "<TITLE"),
    .htmlSig (str "<B"), .htmlSig (str "<BODY"), .htmlSig (str "<BR"),
    .htmlSig (str "<P"), .htmlSig (str "<!--"),
    .maskedSig [0xFF, 0xFF, 0xFF, 0xFF, 0xFF] (str "<?xml") true (str "text/xml; charset=utf-8"),
    .exactSig (str "%PDF-") (str "application/pdf"),
    .exactSig (str "%!PS-Adobe-") (str "application/postscript"),
    .maskedSig [0xFF, 0xFF, 0, 0] [0xFE, 0xFF, 0, 0] false (str "text/plain; charset=utf-16be"),
    .maskedSig [0xFF, 0xFF, 0, 0] [0xFF, 0xFE, 0, 0] false (str "text/plain; charset=utf-16le"),
    .maskedSig [0xFF, 0xFF, 0xFF, 0] [0xEF, 0xBB, 0xBF, 0] false (str "text/plain; charset=utf-8"),
    .exactSig [0, 0, 1, 0] (str "image/x-icon"),
    .exactSig [0, 0, 2, 0] (str "image/x-icon"),
    .exactSig (str "BM") (str "image/bmp"),
    .exactSig (str "GIF87a") (str "image/gif"),
    .exactSig (str "GIF89a") (str "image/gif"),
    .maskedSig [0xFF, 0xFF, 0xFF, 0xFF, 0, 0, 0, 0, 0xFF, 0xFF, 0xFF, 0xFF, 0xFF, 0xFF]
      (str "RIFF" ++ [0, 0, 0, 0] ++ str "WEBPVP") false (str "image/webp"),
    .exactSig [0x89, 80, 78, 71, 0x0D, 0x0A, 0x1A, 0x0A] (str "image/png"),
    .exactSig [0xFF, 0xD8, 0xFF] (str "image/jpeg"),
    .maskedSig [0xFF, 0xFF, 0xFF, 0xFF, 0, 0, 0, 0, 0xFF, 0xFF, 0xFF, 0xFF]
      (str "FORM" ++ [0, 0, 0, 0] ++ str "AIFF") false (str "audio/aiff"),
    .maskedSig [0xFF, 0xFF, 0xFF] (str "ID3") false (str "audio/mpeg"),
    .maskedSig [0xFF, 0xFF, 0xFF, 0xFF, 0xFF] (str "OggS" ++ [0]) false (str "application/ogg"),
    .maskedSig [0xFF, 0xFF, 0xFF, 0xFF, 0xFF, 0xFF, 0xFF, 0xFF] (str "MThd" ++ [0, 0, 0, 6]) false
      (str "audio/midi"),
    .maskedSig [0xFF, 0xFF, 0xFF, 0xFF, 0, 0, 0, 0, 0xFF, 0xFF, 0xFF, 0xFF]
      (str "RIFF" ++ [0, 0, 0, 0] ++ str "AVI ") false (str "video/avi"),
    .maskedSig [0xFF, 0xFF, 0xFF, 0xFF, 0, 0, 0, 0, 0xFF, 0xFF, 0xFF, 0xFF]
      (str "RIFF" ++ [0, 0, 0, 0] ++ str "WAVE") false (str "audio/wave"),
    .mp4Sig,
    .exactSig [0x1A, 0x45, 0xDF, 0xA3] (str "video/webm"),
    .maskedSig (List.replicate 34 0 ++ [0xFF, 0xFF]) (List.replicate 34 0 ++ str "LP") false
      (str "application/vnd.ms-fontobject"),
    .exactSig [0, 1, 0, 0] (str "font/ttf"),
    .exactSig (str "OTTO") (str "font/otf"),
    .exactSig (str "ttcf") (str "font/collection"),
    .exactSig (str "wOFF") (str "font/woff"),
    .exactSig (str "wOF2") (str "font/woff2"),
    .exactSig [0x1F, 0x8B, 0x08] (str "application/x-gzip"),
    .exactSig (str "PK" ++ [3, 4]) (str "application/zip"),
    .exactSig (str "Rar!" ++ [0x1A, 0x07, 0x00]) (str "application/x-rar-compressed"),
    .exactSig (str "Rar!" ++ [0x1A, 0x07, 0x01, 0x00]) (str "application/x-rar-compressed"),
    .exactSig [0x00, 0x61, 0x73, 0x6D] (str "application/wasm"),
    .textSig ]

/-- The loop of `DetectContentType` over the signatures: the first content type
that is not empty, `application/octet-stream` if there is none. -/
def sniffLoop (data : List Nat) (firstNonWS : Nat) : List sniffSig → GoString
  | [] => str "application/octet-stream"
  | sig :: sigs =>
    if sig.match data firstNonWS = [] then sniffLoop data firstNonWS sigs
    else sig.match data firstNonWS

/-- The function `http.DetectContentType`: it looks at no more than the first 512
bytes of the data. -/
def DetectContentType (data : List Nat) : GoString :=
  sniffLoop (data.take 512) ((data.take 512).takeWhile isWS).length sniffSignatures

/-! ## encoding/json -/

/-- The table `htmlSafeSet` of `encoding/json`: the ASCII bytes written as they are. -/
def htmlSafeSet (b : Nat) : Bool :=
  decide (0x20 ≤ b ∧ b < 0x80 ∧ b ≠ 34 ∧ b ≠ 92 ∧ b ≠ 60 ∧ b ≠ 62 ∧ b ≠ 38)

/-- The loop of `appendString` of `encoding/json` with HTML escaping, which is what
`json.NewEncoder` has by default. Every round consumes a byte of the string, so
the length of the string is fuel enough. -/
def appendStringLoop : Nat → GoString → GoString
  | 0, _ => []
  | fuel + 1, src =>
    match src with
    | [] => []
    | b :: rest =>
      if b < 0x80 then
        (if htmlSafeSet b then [b]
         else if b = 92 ∨ b = 34 then [92, b]
         else if b = 8 then [92, 98]
         else if b = 12 then [92, 102]
         else if b = 10 then [92, 110]
         else if b = 13 then [92, 114]
         else if b = 9 then [92, 116]
         else [92, 117, 48, 48, lowerhex (b / 16), lowerhex b]) ++ appendStringLoop fuel rest
      else if (DecodeRune src).1 = RuneError ∧ (DecodeRune src).2 = 1 then
        [92, 117, 102, 102, 102, 100] ++ appendStringLoop fuel rest
      else if (DecodeRune src).1 = 0x2028 ∨ (DecodeRune src).1 = 0x2029 then
        [92, 117, 50, 48, 50, lowerhex (DecodeRune src).1]
          ++ appendStringLoop fuel (src.drop (DecodeRune src).2)
      else src.take (DecodeRune src).2 ++ appendStringLoop fuel (src.drop (DecodeRune src).2)

/-- The function `appendString` of `encoding/json`: a string as a JSON string. -/
def appendString (src : GoString) : GoString :=
  34 :: appendStringLoop src.length src ++ [34]

/-! ## Go maps with string keys -/

/-- A Go map `map[string]V`: the pairs it holds, no key twice. The order of the
list is not observable: a map is read by key, and `encoding/json` sorts the keys. -/
abbrev GoMap (V : Type) := List (GoString × V)

/-- The map index expression `m[k]`, with the "comma ok" result as an option. -/
def GoMap.get {V : Type} (m : GoMap V) (k : GoString) : Option V := List.lookup k m

/-- The assignment `m[k] = v`: a former value at `k` is replaced. -/
def GoMap.set {V : Type} (m : GoMap V) (k : GoString) (v : V) : GoMap V :=
  (k, v) :: m.filter fun p => p.1 ≠ k

/-- The keys of a map. -/
def GoMap.keys {V : Type} (m : GoMap V) : List GoString := m.map Prod.fst

/-- The comparison `a <= b` of Go strings: bytewise lexicographic. -/
def strLE : GoString → GoString → Bool
  | [], _ => true
  | _ :: _, [] => false
  | a :: as, b :: bs => decide (a < b) || (a == b && strLE as bs)

/-- The keys of a map in the order in which `encoding/json` writes them: sorted. -/
def sortedKeys {V : Type} (m : GoMap V) : List GoString :=
  (GoMap.keys m).insertionSort fun a b => strLE a b = true

/-- The map encoder of `encoding/json`: the keys sorted, each followed by a colon
and its value, separated by commas, within braces. -/
def encodeMap {V : Type} (encodeValue : V → GoString) (m : GoMap V) : GoString :=
  123 :: List.intercalate [44]
      ((sortedKeys m).map fun k =>
        appendString k ++ 58 :: (match GoMap.get m k with
          | some v => encodeValue v
          | none => []))
    ++ [125]

/-! ## The environment of the program -/

/-- An `os.FileInfo`, as far as the program reads it. -/
structure FileInfo where
  /-- The method `IsDir()`. -/
  IsDir : Bool
  /-- The method `ModTime()`, an instant. -/
  ModTime : Nat

/-- An open `*os.File`, as far as the program uses it. -/
structure File where
  /-- The method `Stat()`. -/
  Stat : Except GoError FileInfo
  /-- The method `Read(buf)` for a buffer of the given length: the bytes it delivers
  (they are stored at the start of the buffer) and the error it returns. -/
  Read : Nat → List Nat × Option GoError

/-- What the program gets from the machine it runs on. -/
structure Env where
  /-- The function `filepath.Rel(basepath, targpath)`. -/
  Rel : GoString → GoString → GoString × Option GoError
  /-- The function `filepath.EvalSymlinks(path)`: a path and an error. -/
  EvalSymlinks : GoString → GoString × Option GoError
  /-- The function `os.Open(name)`. -/
  Open : GoString → Except GoError File
  /-- The function `mime.TypeByExtension(ext)`, whose table is read from the system. -/
  TypeByExtension : GoString → GoString
  /-- The function `http.DetectContentType(data)` of the release in use. -/
  DetectContentType : List Nat → GoString
  /-- The Unicode tables of `strconv.IsPrint`. -/
  printTables : Nat → Bool
  /-- The formatting `t.Format(http.TimeFormat)` of an instant. -/
  FormatHTTP : Nat → GoString

/-- One call of the callback by `filepath.Walk`: the arguments `subpath`, `info`, `err`. -/
structure WalkCall where
  /-- The path of the entry: the root joined with the names below it. -/
  subpath : GoString
  /-- The `os.FileInfo` of the entry. -/
  info : FileInfo
  /-- The error `filepath.Walk` met at the entry, if any. -/
  err : Option GoError

/-- The state the callback works on: the map `resourcesMap` and what was written
to `os.Stderr`, one element per `fmt.Fprintf`. -/
structure State where
  /-- The variable `resourcesMap` of `main`. -/
  resourcesMap : GoMap (GoMap GoString)
  /-- The writes to `os.Stderr`, in order. -/
  stderr : List GoString

/-- The empty state in which the walk starts. -/
def emptyState : State := { resourcesMap := [], stderr := [] }

/-- One `fmt.Fprintf(os.Stderr, ...)`. -/
def State.Fprintf (st : State) (line : GoString) : State :=
  { st with stderr := st.stderr ++ [line] }

/-! ## main.go -/

/-- The loop over `*exclude` in the callback (lines 70 to 87): whether it leaves
the callback by `return nil`. A pattern with a separator is matched against the
relative path, any other against every segment of it; the error of
`filepath.Match` is dropped. -/
def excluded (exclude : List GoString) (relPath : GoString) : Bool :=
  exclude.any fun pattern =>
    let toMatch : List GoString :=
      if ContainsRune pattern Separator then [relPath] else Split Separator relPath
    toMatch.any fun matchPath => (Match pattern matchPath).1

/-- The buffer `fileBytes` after `file.Read(fileBytes)`: `size` zero bytes from
`make([]byte, size)`, the bytes read stored at its start. -/
def fileBytes (size : Nat) (read : List Nat) : List Nat :=
  read.take size ++ List.replicate (size - read.length) 0

/-- The choice of the content type (lines 112 to 128). -/
def contentType (env : Env) (relPath subpath : GoString) (buf : List Nat) : GoString :=
  if HasSuffix relPath (str ".svg") then str "image/svg+xml"
  else if env.TypeByExtension (Ext subpath) ≠ [] then env.TypeByExtension (Ext subpath)
  else env.DetectContentType buf

/-- The name of the resource (lines 133 and 134): `%x` of the SHA-1 digest of the
relative path. -/
def resourceName (relPath : GoString) : GoString := hexString (sha1Sum relPath)

/-- The map literal of lines 136 to 144. -/
def descriptor (env : Env) (bucketName relPath subpath contentType : GoString)
    (statinfo : FileInfo) : GoMap GoString :=
  [ (str "bucket", bucketName),
    (str "key", relPath),
    (str "source", subpath),
    (str "etag", str "$\x7bmd5(file(" ++ Quote env.printTables subpath ++ str "))\x7d"),
    (str "content_type", contentType),
    (str "cache_control", str "max-age=86400, stale-while-revalidate=3600"),
    (str "last_modified", env.FormatHTTP statinfo.ModTime) ]

/-- The callback given to `filepath.Walk` (lines 45 to 147): the error it returns
to the walker and the state it leaves. -/
def walkFn (env : Env) (rootDir bucketName : GoString) (exclude : List GoString)
    (st : State) (call : WalkCall) : Option GoError × State :=
  match call.err with
  | some err =>
    (none, st.Fprintf (str "Error reading " ++ call.subpath ++ str ": " ++ err.Error ++ str "\n"))
  | none =>
    match env.Rel rootDir call.subpath with
    | (_, some err) =>
      (none, st.Fprintf
        (str "Failed make " ++ call.subpath ++ str " relative: " ++ err.Error ++ str "\n"))
    | (relPath, none) =>
      match env.EvalSymlinks call.subpath with
      | (subpath, some err) =>
        (none, st.Fprintf
          (str "Failed to resolve symlink " ++ subpath ++ str ": " ++ err.Error ++ str "\n"))
      | (subpath, none) =>
        if call.info.IsDir then (none, st)
        else if excluded exclude relPath then (none, st)
        else
          match env.Open subpath with
          | .error err =>
            (none, st.Fprintf
              (str "Error opening " ++ subpath ++ str ": " ++ err.Error ++ str "\n"))
          | .ok file =>
            match file.Stat with
            | .error err =>
              (none, st.Fprintf
                (str "Error reading stats " ++ subpath ++ str ": " ++ err.Error ++ str "\n"))
            | .ok statinfo =>
              match file.Read (1024 * 1024) with
              | (read, err) =>
                if err.isSome ∧ err ≠ some GoError.EOF then
                  (none, st.Fprintf
                    (str "Error reading " ++ subpath ++ str ": "
                      ++ (err.map GoError.Error).getD [] ++ str "\n"))
                else
                  (none,
                    { st with
                      resourcesMap := GoMap.set st.resourcesMap (resourceName relPath)
                        (descriptor env bucketName relPath subpath
                          (contentType env relPath subpath (fileBytes (1024 * 1024) read))
                          statinfo) })

/-- The walker `filepath.Walk` as the callback sees it: it makes its calls one
after the other and stops at the first call that returns an error. -/
def Walk (fn : State → WalkCall → Option GoError × State) : List WalkCall → State → State
  | [], st => st
  | call :: calls, st =>
    match fn st call with
    | (none, st1) => Walk fn calls st1
    | (some _, st1) => st1

/-- What a run of the program writes. -/
structure Output where
  /-- The bytes written to `os.Stdout`. -/
  stdout : GoString
  /-- The writes to `os.Stderr`, in order. -/
  stderr : List GoString

/-- The state after the walk of `main` (lines 38 to 147), `calls` being the calls
that `filepath.Walk` makes for the root directory. -/
def traverse (env : Env) (rootDir bucketName : GoString) (exclude : List GoString)
    (calls : List WalkCall) : State :=
  Walk (walkFn env rootDir bucketName exclude) calls emptyState

/-- The method `Encode` of the encoder on the value `result` (lines 39 to 43 and
149 to 150): the nested maps, followed by a newline. -/
def Encode (resourcesMap : GoMap (GoMap GoString)) : GoString :=
  encodeMap (encodeMap (encodeMap (encodeMap appendString)))
      [(str "resource", [(str "aws_s3_bucket_object", resourcesMap)])]
    ++ [10]

/-- The function `main` after the arguments are parsed (`args` has two elements and
`--help` is not set): the walk, then the encoding of `result`. -/
def main (env : Env) (rootDir bucketName : GoString) (exclude : List GoString)
    (calls : List WalkCall) : Output :=
  let st := traverse env rootDir bucketName exclude calls
  { stdout := Encode st.resourcesMap, stderr := st.stderr }

/-- The function `filepath.IsAbs` on Unix: the path begins with a slash. -/
def IsAbs (path : GoString) : Bool := HasPrefix path (str "/")

/-! ## A concrete directory

A root directory that holds `a/b.txt` and `greeting` (both with the content
`hello`), the empty file `a/c.svg`, and `link`, a symbolic link to a missing file
`missing` of the root. The root is `public`, a relative path, unless said otherwise. -/

/-- A regular file of the given content as `os.Open` returns it: `Read` delivers
the start of the content, and `io.EOF` with no bytes when there is none. -/
def regularFile (content : List Nat) (modTime : Nat) : File where
  Stat := .ok { IsDir := false, ModTime := modTime }
  Read := fun n =>
    if n = 0 then ([], none)
    else if content = [] then ([], some GoError.EOF)
    else (content.take n, none)

/-- The path `filepath.Join(root, name)` for a clean `root` and a clean relative
`name`: below the root `.` it is `name` itself. -/
def demoJoin (root name : GoString) : GoString :=
  if root = str "." then name else root ++ str "/" ++ name

/-- The machine for the directory at `root`, a clean path. `filepath.EvalSymlinks`
leaves a path without links as it is, and returns the empty path with the error of
`lstat` for the dangling link. -/
def demoEnvAt (root : GoString) : Env where
  Rel := fun basepath targpath =>
    if targpath = basepath then (str ".", none)
    else if basepath = str "." then (targpath, none)
    else (targpath.drop (basepath.length + 1), none)
  EvalSymlinks := fun path =>
    if path = demoJoin root (str "link") then
      ([], some (.other
        (str "lstat " ++ demoJoin root (str "missing") ++ str ": no such file or directory")))
    else (path, none)
  Open := fun name =>
    if name = demoJoin root (str "a/b.txt") ∨ name = demoJoin root (str "greeting") then
      .ok (regularFile (str "hello") 0)
    else if name = demoJoin root (str "a/c.svg") then .ok (regularFile [] 0)
    else .error (.other (str "open " ++ name ++ str ": no such file or directory"))
  TypeByExtension := fun ext => if ext = str ".txt" then str "text/plain; charset=utf-8" else []
  DetectContentType := DetectContentType
  printTables := fun _ => false
  FormatHTTP := fun _ => str "Thu, 01 Jan 1970 00:00:00 GMT"

/-- The machine for the directory `public`. -/
def demoEnv : Env := demoEnvAt (str "public")

/-- A call of the callback for a directory. -/
def dirCall (subpath : GoString) : WalkCall :=
  { subpath := subpath, info := { IsDir := true, ModTime := 0 }, err := none }

/-- A call of the callback for an entry that is not a directory. -/
def fileCall (subpath : GoString) : WalkCall :=
  { subpath := subpath, info := { IsDir := false, ModTime := 0 }, err := none }

/-- The calls `filepath.Walk` makes for the directory at `root`, in lexical order:
the root as given, then the root joined with the names below it. -/
def demoCallsAt (root : GoString) : List WalkCall :=
  [dirCall root, dirCall (demoJoin root (str "a")), fileCall (demoJoin root (str "a/b.txt")),
   fileCall (demoJoin root (str "a/c.svg")), fileCall (demoJoin root (str "greeting")),
   fileCall (demoJoin root (str "link"))]

/-- The calls `filepath.Walk` makes for the root `public`. -/
def demoCalls : List WalkCall := demoCallsAt (str "public")

/-- The descriptor of `a/b.txt` of the directory at `root` in the bucket `bucketName`. -/
def demoDescriptorAt (root bucketName : GoString) : GoMap GoString :=
  descriptor (demoEnvAt root) bucketName (str "a/b.txt") (demoJoin root (str "a/b.txt"))
    (str "text/plain; charset=utf-8") { IsDir := false, ModTime := 0 }

/-- The descriptor of `a/b.txt` of `public` in the bucket `mybucket`. -/
def demoDescriptor : GoMap GoString := demoDescriptorAt (str "public") (str "mybucket")

/-- The descriptor of `a/c.svg` of `public` in the bucket `mybucket`. -/
def demoSvgDescriptor : GoMap GoString :=
  descriptor demoEnv (str "mybucket") (str "a/c.svg") (str "public/a/c.svg")
    (str "image/svg+xml") { IsDir := false, ModTime := 0 }

/-- The conditions under which the callback reaches the assignment to
`resourcesMap`: no error from the walker, from `filepath.Rel`, from
`filepath.EvalSymlinks`, not a directory, not excluded, the file opens, `Stat`
succeeds and `Read` returns no error or `io.EOF`. -/
def Recorded (env : Env) (rootDir : GoString) (exclude : List GoString) (call : WalkCall)
    (relPath subpath : GoString) (statinfo : FileInfo) (read : List Nat) : Prop :=
  call.err = none ∧ env.Rel rootDir call.subpath = (relPath, none) ∧
  env.EvalSymlinks call.subpath = (subpath, none) ∧ call.info.IsDir = false ∧
  excluded exclude relPath = false ∧
  ∃ file, env.Open subpath = .ok file ∧ file.Stat = .ok statinfo ∧
    ∃ err, file.Read (1024 * 1024) = (read, err) ∧ (err = none ∨ err = some GoError.EOF)

/-- The pair that the callback adds to `resourcesMap` for a call, if it adds one:
read off the callback run on the empty map. -/
def recordOf (env : Env) (rootDir bucketName : GoString) (exclude : List GoString)
    (call : WalkCall) : Option (GoString × GoMap GoString) :=
  (walkFn env rootDir bucketName exclude emptyState call).2.resourcesMap.head?

/-! ## Lemmas on Go maps -/

theorem GoMap.get_set_self {V : Type} (m : GoMap V) (k : GoString) (v : V) :
    GoMap.get (GoMap.set m k v) k = some v := by
  simp [GoMap.get, GoMap.set, List.lookup]

theorem GoMap.get_filter_ne {V : Type} (m : GoMap V) (k k1 : GoString) (h : k1 ≠ k) :
    List.lookup k1 (m.filter fun p => p.1 ≠ k) = List.lookup k1 m := by
  induction m with
  | nil => rfl
  | cons p m ih =>
    obtain ⟨a, b⟩ := p
    by_cases ha : a = k
    · subst ha
      have hne : (k1 == a) = false := by simpa using h
      simpa [List.filter, List.lookup, hne] using ih
    · by_cases hk : k1 = a
      · subst hk
        simp [List.filter, List.lookup, ha]
      · have hne : (k1 == a) = false := by simpa using hk
        simpa [List.filter, List.lookup, ha, hne] using ih

theorem GoMap.get_set_ne {V : Type} (m : GoMap V) (k k1 : GoString) (v : V) (h : k1 ≠ k) :
    GoMap.get (GoMap.set m k v) k1 = GoMap.get m k1 := by
  have hne : (k1 == k) = false := by simpa using h
  simp only [GoMap.get, GoMap.set, List.lookup, hne]
  exact GoMap.get_filter_ne m k k1 h

theorem GoMap.mem_set {V : Type} (m : GoMap V) (k : GoString) (v : V) (x : GoString × V)
    (h : x ∈ GoMap.set m k v) : x = (k, v) ∨ x ∈ m := by
  simp only [GoMap.set, List.mem_cons, List.mem_filter] at h
  rcases h with h | h
  · exact Or.inl h
  · exact Or.inr h.1

/-! ## The callback, case by case -/

theorem walkFn_fst (env : Env) (rootDir bucketName : GoString) (exclude : List GoString)
    (st : State) (call : WalkCall) :
    (walkFn env rootDir bucketName exclude st call).1 = none := by
  unfold walkFn
  repeat' split
  all_goals rfl

theorem walkFn_recorded (env : Env) (rootDir bucketName : GoString) (exclude : List GoString)
    (st : State) (call : WalkCall) (relPath subpath : GoString) (statinfo : FileInfo)
    (read : List Nat) (h : Recorded env rootDir exclude call relPath subpath statinfo read) :
    (walkFn env rootDir bucketName exclude st call).2.resourcesMap
      = GoMap.set st.resourcesMap (resourceName relPath)
          (descriptor env bucketName relPath subpath
            (contentType env relPath subpath (fileBytes (1024 * 1024) read)) statinfo) := by
  obtain ⟨herr, hrel, hev, hdir, hex, file, hopen, hstat, err, hread, herr2⟩ := h
  unfold walkFn
  simp only [herr, hrel, hev, hdir, hex, hopen, hstat, hread]
  rcases herr2 with h0 | h0 <;> subst h0 <;> simp

theorem walkFn_cases (env : Env) (rootDir bucketName : GoString) (exclude : List GoString)
    (st : State) (call : WalkCall) :
    (walkFn env rootDir bucketName exclude st call).2.resourcesMap = st.resourcesMap ∨
    ∃ relPath subpath statinfo read,
      Recorded env rootDir exclude call relPath subpath statinfo read ∧
      (walkFn env rootDir bucketName exclude st call).2.resourcesMap
        = GoMap.set st.resourcesMap (resourceName relPath)
            (descriptor env bucketName relPath subpath
              (contentType env relPath subpath (fileBytes (1024 * 1024) read)) statinfo) := by
  rcases herr : call.err with _ | e
  swap
  · left; unfold walkFn; simp only [herr]; rfl
  rcases hrel : env.Rel rootDir call.subpath with ⟨relPath, _ | e⟩
  swap
  · left; unfold walkFn; simp only [herr, hrel]; rfl
  rcases hev : env.EvalSymlinks call.subpath with ⟨subpath, _ | e⟩
  swap
  · left; unfold walkFn; simp only [herr, hrel, hev]; rfl
  by_cases hdir : call.info.IsDir = true
  · left; unfold walkFn; simp only [herr, hrel, hev, hdir]; rfl
  by_cases hex : excluded exclude relPath = true
  · left; unfold walkFn; simp only [herr, hrel, hev, hdir, hex]; rfl
  rcases hopen : env.Open subpath with e | file
  · left; unfold walkFn; simp only [herr, hrel, hev, hdir, hex, hopen]; rfl
  rcases hstat : file.Stat with e | statinfo
  · left; unfold walkFn; simp only [herr, hrel, hev, hdir, hex, hopen, hstat]; rfl
  rcases hread : file.Read (1024 * 1024) with ⟨read, err⟩
  by_cases hbad : err.isSome ∧ err ≠ some GoError.EOF
  · left; unfold walkFn; simp only [herr, hrel, hev, hdir, hex, hopen, hstat, hread]
    rw [if_pos hbad]; rfl
  · right
    have hok : err = none ∨ err = some GoError.EOF := by
      cases err with
      | none => exact Or.inl rfl
      | some e =>
        right
        by_contra hne
        exact hbad ⟨rfl, hne⟩
    have hrec : Recorded env rootDir exclude call relPath subpath statinfo read :=
      ⟨herr, hrel, hev, by simpa using hdir, by simpa using hex, file, hopen, hstat, err, hread, hok⟩
    exact ⟨relPath, subpath, statinfo, read, hrec,
      walkFn_recorded env rootDir bucketName exclude st call relPath subpath statinfo read hrec⟩

theorem Walk_eq_foldl (env : Env) (rootDir bucketName : GoString) (exclude : List GoString)
    (calls : List WalkCall) (st : State) :
    Walk (walkFn env rootDir bucketName exclude) calls st
      = calls.foldl (fun s call => (walkFn env rootDir bucketName exclude s call).2) st := by
  induction calls generalizing st with
  | nil => rfl
  | cons call calls ih =>
    have h1 := walkFn_fst env rootDir bucketName exclude st call
    rcases hw : walkFn env rootDir bucketName exclude st call with ⟨r, st1⟩
    rw [hw] at h1
    simp only at h1
    subst h1
    simp only [Walk, hw, List.foldl_cons]
    exact ih st1

/-- Whatever holds of every descriptor the callback can add for a call of the walk
holds of every descriptor of the map after the walk. -/
theorem traverse_forall (env : Env) (rootDir bucketName : GoString) (exclude : List GoString)
    (calls : List WalkCall) (P : GoString → GoMap GoString → Prop)
    (hP : ∀ call ∈ calls, ∀ relPath subpath statinfo read,
      Recorded env rootDir exclude call relPath subpath statinfo read →
      P (resourceName relPath) (descriptor env bucketName relPath subpath
        (contentType env relPath subpath (fileBytes (1024 * 1024) read)) statinfo))
    (k : GoString) (d : GoMap GoString)
    (h : (k, d) ∈ (traverse env rootDir bucketName exclude calls).resourcesMap) : P k d := by
  have key : ∀ (cs : List WalkCall) (st : State), (∀ c ∈ cs, c ∈ calls) →
      (∀ x ∈ st.resourcesMap, P x.1 x.2) →
      ∀ x ∈ (cs.foldl (fun s call => (walkFn env rootDir bucketName exclude s call).2)
        st).resourcesMap, P x.1 x.2 := by
    intro cs
    induction cs with
    | nil => intro st _ hst; exact hst
    | cons call cs ih =>
      intro st hsub hst
      simp only [List.foldl_cons]
      apply ih
      · intro c hc; exact hsub c (List.mem_cons_of_mem _ hc)
      intro x hx
      rcases walkFn_cases env rootDir bucketName exclude st call with hu | ⟨r, s, info, rd, hrec, hs⟩
      · rw [hu] at hx; exact hst x hx
      · rw [hs] at hx
        rcases GoMap.mem_set _ _ _ _ hx with hx1 | hx1
        · subst hx1; exact hP call (hsub call (List.mem_cons_self _ _)) r s info rd hrec
        · exact hst x hx1
  unfold traverse at h
  rw [Walk_eq_foldl] at h
  exact key calls _ (fun c hc => hc) (by intro x hx; cases hx) (k, d) h

/-! ## The exclusion loop and the quoting, in general -/

theorem excluded_eq_true_iff (exclude : List GoString) (r : GoString) :
    excluded exclude r = true ↔
      ∃ p ∈ exclude, (ContainsRune p Separator = true ∧ (Match p r).1 = true) ∨
        (ContainsRune p Separator = false ∧ ∃ seg ∈ Split Separator r, (Match p seg).1 = true) := by
  unfold excluded
  rw [List.any_eq_true]
  constructor
  · rintro ⟨p, hp, h⟩
    refine ⟨p, hp, ?_⟩
    by_cases hc : ContainsRune p Separator = true
    · left
      simp only [hc, if_true, List.any_cons, List.any_nil, Bool.or_false] at h
      exact ⟨hc, h⟩
    · right
      have hc2 : ContainsRune p Separator = false := by simpa using hc
      simp only [hc2, List.any_eq_true] at h
      exact ⟨hc2, by simpa using h⟩
  · rintro ⟨p, hp, h⟩
    refine ⟨p, hp, ?_⟩
    rcases h with ⟨hc, hm⟩ | ⟨hc, seg, hseg, hm⟩
    · simp only [hc, if_true, List.any_cons, List.any_nil, Bool.or_false]
      exact hm
    · simp only [hc, List.any_eq_true]
      exact ⟨seg, by simpa using hseg, hm⟩

theorem quoteLoop_printable (tables : Nat → Bool) (s : GoString)
    (h : ∀ b ∈ s, 0x20 ≤ b ∧ b ≤ 0x7E ∧ b ≠ 34 ∧ b ≠ 92) :
    quoteLoop tables s.length s = s := by
  induction s with
  | nil => rfl
  | cons b t ih =>
    have hb := h b (List.mem_cons_self _ _)
    have ht := ih fun c hc => h c (List.mem_cons_of_mem _ hc)
    obtain ⟨h1, h2, h3, h4⟩ := hb
    have hlt : b < 0x80 := by omega
    have hne : b ≠ RuneError := by unfold RuneError; omega
    have hpr : IsPrint tables b = true := by
      unfold IsPrint
      rw [if_pos (by omega), if_pos ⟨h1, h2⟩]
    have happ : AppendRune b = [b] := by unfold AppendRune; rw [if_pos hlt]
    have hesc : appendEscapedRune tables b = [b] := by
      unfold appendEscapedRune
      rw [if_neg (by omega), if_pos hpr, happ]
    simp only [List.length_cons, quoteLoop, if_pos hlt, hne, and_false, if_false, hesc,
      List.drop_succ_cons, List.drop_zero, ht, List.singleton_append]

/-! ## The fields of a descriptor -/

theorem descriptor_bucket (env : Env) (bucketName relPath subpath ct : GoString)
    (statinfo : FileInfo) :
    GoMap.get (descriptor env bucketName relPath subpath ct statinfo) (str "bucket")
      = some bucketName := rfl

theorem descriptor_key (env : Env) (bucketName relPath subpath ct : GoString)
    (statinfo : FileInfo) :
    GoMap.get (descriptor env bucketName relPath subpath ct statinfo) (str "key")
      = some relPath := rfl

theorem descriptor_source (env : Env) (bucketName relPath subpath ct : GoString)
    (statinfo : FileInfo) :
    GoMap.get (descriptor env bucketName relPath subpath ct statinfo) (str "source")
      = some subpath := rfl

theorem descriptor_etag (env : Env) (bucketName relPath subpath ct : GoString)
    (statinfo : FileInfo) :
    GoMap.get (descriptor env bucketName relPath subpath ct statinfo) (str "etag")
      = some (str "$\x7bmd5(file(" ++ Quote env.printTables subpath ++ str "))\x7d") := rfl

theorem descriptor_content_type (env : Env) (bucketName relPath subpath ct : GoString)
    (statinfo : FileInfo) :
    GoMap.get (descriptor env bucketName relPath subpath ct statinfo) (str "content_type")
      = some ct := rfl

theorem descriptor_cache_control (env : Env) (bucketName relPath subpath ct : GoString)
    (statinfo : FileInfo) :
    GoMap.get (descriptor env bucketName relPath subpath ct statinfo) (str "cache_control")
      = some (str "max-age=86400, stale-while-revalidate=3600") := rfl

/-! ## Exclusion -/

/-- C1: an entry whose relative path is matched by an exclusion pattern (a pattern
with a separator against the whole relative path, a pattern without one against
some segment of it) leaves `resourcesMap` as it was; with the pattern
`node_modules`, so does every entry that has a segment equal to `node_modules`;
and no descriptor of the map after the walk has a matched path as its key. -/
theorem excluded_entry_is_skipped (env : Env) (rootDir bucketName : GoString)
    (exclude : List GoString) :
    (∀ (st : State) (call : WalkCall),
      (∃ p ∈ exclude,
        (ContainsRune p Separator = true ∧ (Match p (env.Rel rootDir call.subpath).1).1 = true) ∨
        (ContainsRune p Separator = false ∧
          ∃ seg ∈ Split Separator (env.Rel rootDir call.subpath).1, (Match p seg).1 = true)) →
      (walkFn env rootDir bucketName exclude st call).2.resourcesMap = st.resourcesMap) ∧
    (∀ (st : State) (call : WalkCall),
      str "node_modules" ∈ exclude →
      str "node_modules" ∈ Split Separator (env.Rel rootDir call.subpath).1 →
      (walkFn env rootDir bucketName exclude st call).2.resourcesMap = st.resourcesMap) ∧
    (∀ (calls : List WalkCall) (k : GoString) (d : GoMap GoString) (r : GoString),
      (k, d) ∈ (traverse env rootDir bucketName exclude calls).resourcesMap →
      GoMap.get d (str "key") = some r →
      ¬ ∃ p ∈ exclude,
        (ContainsRune p Separator = true ∧ (Match p r).1 = true) ∨
        (ContainsRune p Separator = false ∧ ∃ seg ∈ Split Separator r, (Match p seg).1 = true)) := by
  have step : ∀ (st : State) (call : WalkCall),
      excluded exclude (env.Rel rootDir call.subpath).1 = true →
      (walkFn env rootDir bucketName exclude st call).2.resourcesMap = st.resourcesMap := by
    intro st call hex
    rcases walkFn_cases env rootDir bucketName exclude st call with hu | ⟨r, s, info, rd, hrec, _⟩
    · exact hu
    · obtain ⟨_, hrel, _, _, hno, _⟩ := hrec
      rw [hrel] at hex
      rw [hno] at hex
      cases hex
  refine ⟨?_, ?_, ?_⟩
  · intro st call h
    exact step st call ((excluded_eq_true_iff exclude _).2 h)
  · intro st call hp hseg
    apply step st call
    rw [excluded_eq_true_iff]
    exact ⟨str "node_modules", hp, Or.inr ⟨by decide, str "node_modules", hseg, by decide⟩⟩
  · intro calls k d r hmem hkey
    have hinv := traverse_forall env rootDir bucketName exclude calls
      (fun _ d => ∀ r, GoMap.get d (str "key") = some r → excluded exclude r = false)
      (by
        intro call _ relPath subpath statinfo read hrec r1 hr1
        rw [descriptor_key] at hr1
        cases hr1
        exact hrec.2.2.2.2.1)
      k d hmem r hkey
    intro hmatch
    rw [← excluded_eq_true_iff, hinv] at hmatch
    cases hmatch

/-! ## Failures -/

/-- C7: the callback never returns an error, so the walk makes all its calls; a
failure at any phase (the walker, `filepath.Rel`, `filepath.EvalSymlinks`, `os.Open`,
`Stat`, a `Read` error other than `io.EOF`) leaves `resourcesMap` as it was; and
a `Read` that ends with `io.EOF` records the entry. -/
theorem entry_failure_is_skipped (env : Env) (rootDir bucketName : GoString)
    (exclude : List GoString) (st : State) (call : WalkCall) :
    (walkFn env rootDir bucketName exclude st call).1 = none ∧
    (∀ calls : List WalkCall,
      Walk (walkFn env rootDir bucketName exclude) (call :: calls) st
        = Walk (walkFn env rootDir bucketName exclude) calls
            (walkFn env rootDir bucketName exclude st call).2) ∧
    ((call.err ≠ none ∨ (env.Rel rootDir call.subpath).2 ≠ none ∨
        (env.EvalSymlinks call.subpath).2 ≠ none ∨
        (∃ e, env.Open (env.EvalSymlinks call.subpath).1 = .error e) ∨
        (∃ file e, env.Open (env.EvalSymlinks call.subpath).1 = .ok file ∧
          file.Stat = .error e) ∨
        (∃ file e, env.Open (env.EvalSymlinks call.subpath).1 = .ok file ∧
          (file.Read (1024 * 1024)).2 = some e ∧ e ≠ GoError.EOF)) →
      (walkFn env rootDir bucketName exclude st call).2.resourcesMap = st.resourcesMap) ∧
    (∀ (r s : GoString) (file : File) (statinfo : FileInfo) (read : List Nat),
      call.err = none → env.Rel rootDir call.subpath = (r, none) →
      env.EvalSymlinks call.subpath = (s, none) → call.info.IsDir = false →
      excluded exclude r = false → env.Open s = .ok file → file.Stat = .ok statinfo →
      file.Read (1024 * 1024) = (read, some GoError.EOF) →
      GoMap.get (walkFn env rootDir bucketName exclude st call).2.resourcesMap (resourceName r)
        = some (descriptor env bucketName r s
            (contentType env r s (fileBytes (1024 * 1024) read)) statinfo)) := by
  refine ⟨walkFn_fst env rootDir bucketName exclude st call, ?_, ?_, ?_⟩
  · intro calls
    have h1 := walkFn_fst env rootDir bucketName exclude st call
    rcases hw : walkFn env rootDir bucketName exclude st call with ⟨r, st1⟩
    rw [hw] at h1
    simp only at h1
    subst h1
    simp only [Walk, hw]
  · intro hfail
    rcases walkFn_cases env rootDir bucketName exclude st call with hu | ⟨r, s, info, rd, hrec, _⟩
    · exact hu
    · obtain ⟨herr, hrel, hev, _, _, file, hopen, hstat, err, hread, hok⟩ := hrec
      exfalso
      rcases hfail with h | h | h | ⟨e, h⟩ | ⟨f, e, h, h2⟩ | ⟨f, e, h, h2, h3⟩
      · exact h herr
      · rw [hrel] at h; exact h rfl
      · rw [hev] at h; exact h rfl
      · rw [hev, hopen] at h; cases h
      · rw [hev, hopen] at h
        cases h
        rw [hstat] at h2
        cases h2
      · rw [hev, hopen] at h
        cases h
        rw [hread] at h2
        simp only at h2
        subst h2
        rcases hok with hok | hok
        · cases hok
        · cases hok
          exact h3 rfl
  · intro r s file statinfo read herr hrel hev hdir hex hopen hstat hread
    rw [walkFn_recorded env rootDir bucketName exclude st call r s statinfo read
      ⟨herr, hrel, hev, hdir, hex, file, hopen, hstat, some GoError.EOF, hread, Or.inr rfl⟩]
    exact GoMap.get_set_self _ _ _

/-! ## The descriptor of a recorded entry -/

/-- C2: an entry that is no directory, has the relative path `r`, is matched by no
exclusion pattern and meets no error is recorded at the key hex-SHA-1(`r`) with
the bucket name as given, the key `r`, the resolved path `s` as source, the fixed
cache control, and, when `s` is printable ASCII without quote and backslash, the
etag `$\x7bmd5(file("s"))\x7d`; every other key of the map keeps its value. -/
theorem recorded_entry_descriptor (env : Env) (rootDir bucketName : GoString)
    (exclude : List GoString) (st : State) (call : WalkCall) (r s : GoString) (file : File)
    (statinfo : FileInfo) (read : List Nat) (err : Option GoError)
    (hwalk : call.err = none) (hrel : env.Rel rootDir call.subpath = (r, none))
    (hsym : env.EvalSymlinks call.subpath = (s, none)) (hfile : call.info.IsDir = false)
    (hnomatch : ∀ p ∈ exclude,
      (ContainsRune p Separator = true → (Match p r).1 = false) ∧
      (ContainsRune p Separator = false → ∀ seg ∈ Split Separator r, (Match p seg).1 = false))
    (hopen : env.Open s = .ok file) (hstat : file.Stat = .ok statinfo)
    (hread : file.Read (1024 * 1024) = (read, err))
    (heof : err = none ∨ err = some GoError.EOF) :
    (∃ d, GoMap.get (walkFn env rootDir bucketName exclude st call).2.resourcesMap
          (hexString (sha1Sum r)) = some d ∧
        GoMap.get d (str "bucket") = some bucketName ∧
        GoMap.get d (str "key") = some r ∧
        GoMap.get d (str "source") = some s ∧
        GoMap.get d (str "cache_control")
          = some (str "max-age=86400, stale-while-revalidate=3600") ∧
        ((∀ b ∈ s, 0x20 ≤ b ∧ b ≤ 0x7E ∧ b ≠ 34 ∧ b ≠ 92) →
          GoMap.get d (str "etag") = some (str "$\x7bmd5(file(\"" ++ s ++ str "\"))\x7d"))) ∧
    (∀ k, k ≠ hexString (sha1Sum r) →
      GoMap.get (walkFn env rootDir bucketName exclude st call).2.resourcesMap k
        = GoMap.get st.resourcesMap k) := by
  have hex : excluded exclude r = false := by
    cases hx : excluded exclude r with
    | false => rfl
    | true =>
      exfalso
      obtain ⟨p, hp, hm⟩ := (excluded_eq_true_iff exclude r).1 hx
      rcases hm with ⟨hc, hm⟩ | ⟨hc, seg, hseg, hm⟩
      · rw [(hnomatch p hp).1 hc] at hm; cases hm
      · rw [(hnomatch p hp).2 hc seg hseg] at hm; cases hm
  have hw := walkFn_recorded env rootDir bucketName exclude st call r s statinfo read
    ⟨hwalk, hrel, hsym, hfile, hex, file, hopen, hstat, err, hread, heof⟩
  rw [hw]
  refine ⟨⟨_, GoMap.get_set_self _ _ _, descriptor_bucket _ _ _ _ _ _, descriptor_key _ _ _ _ _ _,
    descriptor_source _ _ _ _ _ _, descriptor_cache_control _ _ _ _ _ _, ?_⟩, ?_⟩
  · intro hs
    rw [descriptor_etag]
    have hq : Quote env.printTables s = 34 :: s ++ [34] := by
      unfold Quote
      rw [quoteLoop_printable env.printTables s hs]
    have h1 : str "$\x7bmd5(file(\"" = str "$\x7bmd5(file(" ++ [34] := by decide
    have h2 : str "\"))\x7d" = 34 :: str "))\x7d" := by decide
    rw [hq, h1, h2]
    simp
  · intro k hk
    exact GoMap.get_set_ne _ _ _ _ hk

/-! ## The resource identifier -/

theorem sha1Sum_length (msg : List Nat) : (sha1Sum msg).length = 20 := by
  unfold sha1Sum
  rcases sha1Blocks ((sha1Pad msg).length / 64)
    (0x67452301, 0xEFCDAB89, 0x98BADCFE, 0x10325476, 0xC3D2E1F0) (sha1Pad msg)
    with ⟨h0, h1, h2, h3, h4⟩
  simp [be32]

theorem hexString_length (bs : List Nat) : (hexString bs).length = 2 * bs.length := by
  induction bs with
  | nil => rfl
  | cons b bs ih =>
    have h : hexString (b :: bs) = lowerhex (b / 16) :: lowerhex b :: hexString bs := rfl
    rw [h, List.length_cons, List.length_cons, List.length_cons, ih]
    omega

theorem lowerhex_digit (n : Nat) :
    (48 ≤ lowerhex n ∧ lowerhex n ≤ 57) ∨ (97 ≤ lowerhex n ∧ lowerhex n ≤ 102) := by
  unfold lowerhex
  split <;> omega

theorem hexString_digits (bs : List Nat) :
    ∀ c ∈ hexString bs, (48 ≤ c ∧ c ≤ 57) ∨ (97 ≤ c ∧ c ≤ 102) := by
  induction bs with
  | nil => intro c hc; cases hc
  | cons b bs ih =>
    intro c hc
    have h : hexString (b :: bs) = lowerhex (b / 16) :: lowerhex b :: hexString bs := rfl
    rw [h, List.mem_cons, List.mem_cons] at hc
    rcases hc with hc | hc | hc
    · rw [hc]; exact lowerhex_digit _
    · rw [hc]; exact lowerhex_digit _
    · exact ih c hc

/-- The digest of the test vector `abc` of the SHA-1 standard. -/
theorem sha1Sum_abc :
    hexString (sha1Sum (str "abc")) = str "a9993e364706816aba3e25717850c26c9cd0d89d" := by
  decide!

theorem traverse_key (env : Env) (rootDir bucketName : GoString) (exclude : List GoString)
    (calls : List WalkCall) (k : GoString) (d : GoMap GoString)
    (h : (k, d) ∈ (traverse env rootDir bucketName exclude calls).resourcesMap) :
    ∃ r, GoMap.get d (str "key") = some r ∧ k = hexString (sha1Sum r) :=
  traverse_forall env rootDir bucketName exclude calls
    (fun k d => ∃ r, GoMap.get d (str "key") = some r ∧ k = hexString (sha1Sum r))
    (fun _ _ relPath _ _ _ _ => ⟨relPath, descriptor_key _ _ _ _ _ _, rfl⟩) k d h

/-- C3: every entry `(k, d)` of the map after a walk has as `k` the forty lowercase
hexadecimal digits of the SHA-1 digest of the bytes of the `key` field of `d` and
of nothing else; so descriptors with the same `key`, of whatever walk, bucket,
file content and source path, have the same identifier. -/
theorem resource_name_is_sha1_of_key (env : Env) (rootDir bucketName : GoString)
    (exclude : List GoString) (calls : List WalkCall) (k : GoString) (d : GoMap GoString)
    (h : (k, d) ∈ (traverse env rootDir bucketName exclude calls).resourcesMap) :
    (∃ r, GoMap.get d (str "key") = some r ∧ k = hexString (sha1Sum r) ∧ k.length = 40 ∧
      ∀ c ∈ k, (48 ≤ c ∧ c ≤ 57) ∨ (97 ≤ c ∧ c ≤ 102)) ∧
    (∀ (env2 : Env) (rootDir2 bucketName2 : GoString) (exclude2 : List GoString)
      (calls2 : List WalkCall) (k2 : GoString) (d2 : GoMap GoString),
      (k2, d2) ∈ (traverse env2 rootDir2 bucketName2 exclude2 calls2).resourcesMap →
      GoMap.get d2 (str "key") = GoMap.get d (str "key") → k2 = k) := by
  obtain ⟨r, hr, hk⟩ := traverse_key env rootDir bucketName exclude calls k d h
  refine ⟨⟨r, hr, hk, ?_, ?_⟩, ?_⟩
  · rw [hk, hexString_length, sha1Sum_length]
  · rw [hk]; exact hexString_digits _
  · intro env2 rootDir2 bucketName2 exclude2 calls2 k2 d2 h2 hkey
    obtain ⟨r2, hr2, hk2⟩ := traverse_key env2 rootDir2 bucketName2 exclude2 calls2 k2 d2 h2
    rw [hr, hr2] at hkey
    cases hkey
    rw [hk, hk2]

/-! ## The content type -/

/-- C5: a descriptor of the map after a walk whose `key` ends in `.svg` has the
content type `image/svg+xml`, whatever the file holds and whatever the extension
table and the sniffing of the environment answer. -/
theorem svg_content_type (env : Env) (rootDir bucketName : GoString)
    (exclude : List GoString) (calls : List WalkCall) (k : GoString) (d : GoMap GoString)
    (r : GoString)
    (h : (k, d) ∈ (traverse env rootDir bucketName exclude calls).resourcesMap)
    (hkey : GoMap.get d (str "key") = some r) (hsvg : HasSuffix r (str ".svg") = true) :
    GoMap.get d (str "content_type") = some (str "image/svg+xml") := by
  have hinv := traverse_forall env rootDir bucketName exclude calls
    (fun _ d => ∀ r, GoMap.get d (str "key") = some r → HasSuffix r (str ".svg") = true →
      GoMap.get d (str "content_type") = some (str "image/svg+xml"))
    (by
      intro call _ relPath subpath statinfo read _ r1 hr1 hs1
      rw [descriptor_key] at hr1
      cases hr1
      rw [descriptor_content_type]
      unfold contentType
      rw [if_pos hs1])
    k d h
  exact hinv r hkey hsvg

/-- C4, at the file `greeting` of the directory `public`, which has no extension
and holds the five bytes `hello`: the callback gives `http.DetectContentType` the
whole buffer of 1 MiB, the five bytes followed by zero bytes, and records
`application/octet-stream`, while the five bytes alone are sniffed as
`text/plain; charset=utf-8`. -/
theorem short_file_sniffed_with_padding :
    (GoMap.get (traverse demoEnv (str "public") (str "mybucket") [] demoCalls).resourcesMap
        (resourceName (str "greeting"))).bind (fun d => GoMap.get d (str "content_type"))
      = some (str "application/octet-stream") ∧
    DetectContentType (str "hello") = str "text/plain; charset=utf-8" := by
  decide!

/-! ## The source path -/

/-- C6, as the code has it: every entry `(k, d)` of the map after a walk comes from
a call of the walk for an entry that is no directory, whose relative path is the
`key` of `d` and has the identifier `k`, and the `source` of `d` is the path that
`filepath.EvalSymlinks` returned for the path of that very call, as it is: the
callback stores it without making it absolute. -/
theorem source_is_resolved_path (env : Env) (rootDir bucketName : GoString)
    (exclude : List GoString) (calls : List WalkCall) (k : GoString) (d : GoMap GoString)
    (h : (k, d) ∈ (traverse env rootDir bucketName exclude calls).resourcesMap) :
    ∃ call ∈ calls, ∃ r s,
      call.err = none ∧ call.info.IsDir = false ∧
      env.Rel rootDir call.subpath = (r, none) ∧
      env.EvalSymlinks call.subpath = (s, none) ∧
      excluded exclude r = false ∧
      k = resourceName r ∧
      GoMap.get d (str "key") = some r ∧
      GoMap.get d (str "source") = some s :=
  traverse_forall env rootDir bucketName exclude calls
    (fun k d => ∃ call ∈ calls, ∃ r s,
      call.err = none ∧ call.info.IsDir = false ∧
      env.Rel rootDir call.subpath = (r, none) ∧
      env.EvalSymlinks call.subpath = (s, none) ∧
      excluded exclude r = false ∧
      k = resourceName r ∧
      GoMap.get d (str "key") = some r ∧
      GoMap.get d (str "source") = some s)
    (fun call hc relPath subpath _ _ hrec =>
      ⟨call, hc, relPath, subpath, hrec.1, hrec.2.2.2.1, hrec.2.1, hrec.2.2.1,
        hrec.2.2.2.2.1, rfl, descriptor_key _ _ _ _ _ _, descriptor_source _ _ _ _ _ _⟩)
    k d h

/-- C6 fails for a root given as a relative path: for the root `public` the
descriptor of `greeting` has the source `public/greeting`, for the root `.` it has
the source `greeting`, and neither is absolute. -/
theorem source_relative_for_relative_root :
    ((GoMap.get (traverse demoEnv (str "public") (str "mybucket") [] demoCalls).resourcesMap
        (resourceName (str "greeting"))).bind (fun d => GoMap.get d (str "source"))
      = some (str "public/greeting") ∧
    IsAbs (str "public/greeting") = false) ∧
    ((GoMap.get (traverse (demoEnvAt (str ".")) (str ".") (str "mybucket") []
          (demoCallsAt (str "."))).resourcesMap
        (resourceName (str "greeting"))).bind (fun d => GoMap.get d (str "source"))
      = some (str "greeting") ∧
    IsAbs (str "greeting") = false) := by
  decide!

/-! ## The diagnostics -/

/-- The line of the branch for a failure of `filepath.EvalSymlinks`: it holds the path
that `filepath.EvalSymlinks` returned, not the path of the call. -/
theorem symlink_failure_diagnostic (env : Env) (rootDir bucketName : GoString)
    (exclude : List GoString) (st : State) (call : WalkCall) (relPath returned : GoString)
    (e : GoError) (herr : call.err = none) (hrel : env.Rel rootDir call.subpath = (relPath, none))
    (hev : env.EvalSymlinks call.subpath = (returned, some e)) :
    (walkFn env rootDir bucketName exclude st call).2.stderr
      = st.stderr ++
        [str "Failed to resolve symlink " ++ returned ++ str ": " ++ e.Error ++ str "\n"] := by
  unfold walkFn
  simp only [herr, hrel, hev]
  rfl

/-- The line of the branch for an error of the walker: it holds the path of the call. -/
theorem walk_error_diagnostic (env : Env) (rootDir bucketName : GoString)
    (exclude : List GoString) (st : State) (call : WalkCall) (e : GoError)
    (herr : call.err = some e) :
    (walkFn env rootDir bucketName exclude st call).2.stderr
      = st.stderr ++ [str "Error reading " ++ call.subpath ++ str ": " ++ e.Error ++ str "\n"] := by
  unfold walkFn
  simp only [herr]
  rfl

/-- C8, at the dangling link `public/link`: `filepath.EvalSymlinks` returns the empty
path with its error, the callback stores it in `subpath` and prints that, so the
line on the error stream does not name the entry. -/
theorem symlink_diagnostic_omits_path :
    (walkFn demoEnv (str "public") (str "mybucket") [] emptyState
        (fileCall (str "public/link"))).2.stderr
      = [str "Failed to resolve symlink : lstat public/missing: no such file or directory\n"] ∧
    ¬ (str "public/link"
        <:+: str "Failed to resolve symlink : lstat public/missing: no such file or directory\n") := by
  decide!

/-! ## The walk as a sequence of assignments -/

theorem walkFn_not_recorded (env : Env) (rootDir bucketName : GoString)
    (exclude : List GoString) (st : State) (call : WalkCall)
    (h : ¬ ∃ relPath subpath statinfo read,
      Recorded env rootDir exclude call relPath subpath statinfo read) :
    (walkFn env rootDir bucketName exclude st call).2.resourcesMap = st.resourcesMap := by
  rcases walkFn_cases env rootDir bucketName exclude st call with hu | ⟨r, s, info, rd, hrec, _⟩
  · exact hu
  · exact absurd ⟨r, s, info, rd, hrec⟩ h

theorem walkFn_map (env : Env) (rootDir bucketName : GoString) (exclude : List GoString)
    (st : State) (call : WalkCall) :
    (walkFn env rootDir bucketName exclude st call).2.resourcesMap
      = match recordOf env rootDir bucketName exclude call with
        | none => st.resourcesMap
        | some kd => GoMap.set st.resourcesMap kd.1 kd.2 := by
  by_cases h : ∃ relPath subpath statinfo read,
      Recorded env rootDir exclude call relPath subpath statinfo read
  · obtain ⟨r, s, info, rd, hrec⟩ := h
    have h0 : recordOf env rootDir bucketName exclude call
        = some (resourceName r, descriptor env bucketName r s
            (contentType env r s (fileBytes (1024 * 1024) rd)) info) := by
      unfold recordOf
      rw [walkFn_recorded env rootDir bucketName exclude emptyState call r s info rd hrec]
      rfl
    rw [h0, walkFn_recorded env rootDir bucketName exclude st call r s info rd hrec]
  · have h0 : recordOf env rootDir bucketName exclude call = none := by
      unfold recordOf
      rw [walkFn_not_recorded env rootDir bucketName exclude emptyState call h]
      rfl
    rw [h0, walkFn_not_recorded env rootDir bucketName exclude st call h]

theorem recordOf_dir (env : Env) (rootDir bucketName : GoString) (exclude : List GoString)
    (call : WalkCall) (h : call.info.IsDir = true) :
    recordOf env rootDir bucketName exclude call = none := by
  unfold recordOf
  rw [walkFn_not_recorded env rootDir bucketName exclude emptyState call]
  · rfl
  · rintro ⟨r, s, info, rd, hrec⟩
    have := hrec.2.2.2.1
    rw [h] at this
    cases this

theorem foldl_walkFn_map (env : Env) (rootDir bucketName : GoString) (exclude : List GoString)
    (calls : List WalkCall) (st : State) :
    (calls.foldl (fun s call => (walkFn env rootDir bucketName exclude s call).2) st).resourcesMap
      = (calls.filterMap (recordOf env rootDir bucketName exclude)).foldl
          (fun m kd => GoMap.set m kd.1 kd.2) st.resourcesMap := by
  induction calls generalizing st with
  | nil => rfl
  | cons call calls ih =>
    rw [List.foldl_cons, ih, walkFn_map]
    cases hr : recordOf env rootDir bucketName exclude call with
    | none => simp only [List.filterMap_cons, hr]
    | some kd => simp only [List.filterMap_cons, hr, List.foldl_cons]

theorem traverse_map (env : Env) (rootDir bucketName : GoString) (exclude : List GoString)
    (calls : List WalkCall) :
    (traverse env rootDir bucketName exclude calls).resourcesMap
      = (calls.filterMap (recordOf env rootDir bucketName exclude)).foldl
          (fun m kd => GoMap.set m kd.1 kd.2) [] := by
  unfold traverse
  rw [Walk_eq_foldl, foldl_walkFn_map]
  rfl

theorem foldl_set_fresh {V : Type} (kvs : List (GoString × V)) (m : GoMap V)
    (nd : (kvs.map Prod.fst).Nodup) (hfresh : ∀ kv ∈ kvs, ∀ x ∈ m, x.1 ≠ kv.1) :
    kvs.foldl (fun m kd => GoMap.set m kd.1 kd.2) m = kvs.reverse ++ m := by
  induction kvs generalizing m with
  | nil => rfl
  | cons kv kvs ih =>
    rw [List.map_cons, List.nodup_cons] at nd
    have hset : GoMap.set m kv.1 kv.2 = kv :: m := by
      unfold GoMap.set
      rw [List.filter_eq_self.2]
      intro x hx
      simpa using hfresh kv (List.mem_cons_self _ _) x hx
    rw [List.foldl_cons, hset, ih (kv :: m) nd.2]
    · simp
    · intro kv1 hkv1 x hx
      rcases List.mem_cons.1 hx with hx | hx
      · subst hx
        intro heq
        exact nd.1 (heq ▸ List.mem_map_of_mem Prod.fst hkv1)
      · exact hfresh kv1 (List.mem_cons_of_mem _ hkv1) x hx

/-! ## The order of the keys in the output -/

theorem strLE_total : ∀ a b : GoString, strLE a b = true ∨ strLE b a = true
  | [], _ => Or.inl rfl
  | _ :: _, [] => Or.inr rfl
  | a :: as, b :: bs => by
    simp only [strLE, Bool.or_eq_true, decide_eq_true_eq, Bool.and_eq_true, beq_iff_eq]
    rcases Nat.lt_trichotomy a b with h | h | h
    · exact Or.inl (Or.inl h)
    · rcases strLE_total as bs with h1 | h1
      · exact Or.inl (Or.inr ⟨h, h1⟩)
      · exact Or.inr (Or.inr ⟨h.symm, h1⟩)
    · exact Or.inr (Or.inl h)

theorem strLE_antisymm : ∀ a b : GoString, strLE a b = true → strLE b a = true → a = b
  | [], [], _, _ => rfl
  | [], _ :: _, _, h => by cases h
  | _ :: _, [], h, _ => by cases h
  | a :: as, b :: bs, h1, h2 => by
    simp only [strLE, Bool.or_eq_true, decide_eq_true_eq, Bool.and_eq_true, beq_iff_eq] at h1 h2
    rcases h1 with h1 | ⟨h1, h1t⟩
    · rcases h2 with h2 | ⟨h2, _⟩ <;> omega
    · rcases h2 with h2 | ⟨_, h2t⟩
      · omega
      · rw [h1, strLE_antisymm as bs h1t h2t]

theorem strLE_trans : ∀ a b c : GoString, strLE a b = true → strLE b c = true → strLE a c = true
  | [], _, _, _, _ => rfl
  | _ :: _, [], _, h, _ => by cases h
  | _ :: _, _ :: _, [], _, h => by cases h
  | a :: as, b :: bs, c :: cs, h1, h2 => by
    simp only [strLE, Bool.or_eq_true, decide_eq_true_eq, Bool.and_eq_true, beq_iff_eq] at h1 h2 ⊢
    rcases h1 with h1 | ⟨h1, h1t⟩
    · rcases h2 with h2 | ⟨h2, _⟩
      · exact Or.inl (by omega)
      · exact Or.inl (by omega)
    · rcases h2 with h2 | ⟨h2, h2t⟩
      · exact Or.inl (by omega)
      · exact Or.inr ⟨by omega, strLE_trans as bs cs h1t h2t⟩

theorem sortedKeys_perm {V : Type} (m1 m2 : GoMap V) (h : m1.Perm m2) :
    sortedKeys m1 = sortedKeys m2 := by
  haveI : IsTotal GoString (fun a b => strLE a b = true) := ⟨strLE_total⟩
  haveI : IsTrans GoString (fun a b => strLE a b = true) := ⟨strLE_trans⟩
  haveI : IsAntisymm GoString (fun a b => strLE a b = true) := ⟨strLE_antisymm⟩
  unfold sortedKeys GoMap.keys
  apply List.eq_of_perm_of_sorted (r := fun a b => strLE a b = true)
  · exact (List.perm_insertionSort _ _).trans
      ((h.map Prod.fst).trans (List.perm_insertionSort _ _).symm)
  · exact List.sorted_insertionSort _ _
  · exact List.sorted_insertionSort _ _

theorem lookup_perm {V : Type} {m1 m2 : GoMap V} (h : m1.Perm m2)
    (nd : (m1.map Prod.fst).Nodup) (k : GoString) : List.lookup k m1 = List.lookup k m2 := by
  induction h with
  | nil => rfl
  | cons x _ ih =>
    rw [List.map_cons, List.nodup_cons] at nd
    obtain ⟨a, b⟩ := x
    cases hk : k == a <;> simp only [List.lookup, hk]
    exact ih nd.2
  | swap x y l =>
    obtain ⟨a, b⟩ := x
    obtain ⟨c, d⟩ := y
    simp only [List.map_cons, List.nodup_cons, List.mem_cons, not_or] at nd
    cases hc : k == c <;> cases ha : k == a <;> simp only [List.lookup, hc, ha]
    exfalso
    rw [beq_iff_eq] at hc ha
    exact nd.1.1 (hc.symm.trans ha)
  | trans h1 _ ih1 ih2 =>
    exact (ih1 nd).trans (ih2 ((h1.map Prod.fst).nodup_iff.1 nd))

theorem encodeMap_perm {V : Type} (encodeValue : V → GoString) (m1 m2 : GoMap V)
    (h : m1.Perm m2) (nd : (m1.map Prod.fst).Nodup) :
    encodeMap encodeValue m1 = encodeMap encodeValue m2 := by
  unfold encodeMap
  rw [sortedKeys_perm m1 m2 h]
  have hget : ∀ k, GoMap.get m1 k = GoMap.get m2 k := fun k => lookup_perm h nd k
  simp only [hget]

theorem encodeMap_singleton {V : Type} (encodeValue : V → GoString) (k : GoString) (v : V) :
    encodeMap encodeValue [(k, v)] = 123 :: (appendString k ++ 58 :: encodeValue v) ++ [125] := by
  simp [encodeMap, sortedKeys, GoMap.keys, GoMap.get, List.lookup, List.intercalate]

/-- C9: the output is a function of the input, and for two orders of the same
calls, the identifiers of the recorded entries being pairwise distinct, the bytes
written to standard output are the same: the encoder writes the keys sorted. -/
theorem output_independent_of_order (env : Env) (rootDir bucketName : GoString)
    (exclude : List GoString) (calls1 calls2 : List WalkCall) (hperm : calls1.Perm calls2)
    (hdistinct :
      ((calls1.filterMap (recordOf env rootDir bucketName exclude)).map Prod.fst).Nodup) :
    (main env rootDir bucketName exclude calls1).stdout
      = (main env rootDir bucketName exclude calls2).stdout := by
  have hp := hperm.filterMap (recordOf env rootDir bucketName exclude)
  have hd2 : ((calls2.filterMap (recordOf env rootDir bucketName exclude)).map Prod.fst).Nodup :=
    (hp.map Prod.fst).nodup_iff.1 hdistinct
  have hm1 := traverse_map env rootDir bucketName exclude calls1
  have hm2 := traverse_map env rootDir bucketName exclude calls2
  rw [foldl_set_fresh _ _ hdistinct (by intro _ _ x hx; cases hx), List.append_nil] at hm1
  rw [foldl_set_fresh _ _ hd2 (by intro _ _ x hx; cases hx), List.append_nil] at hm2
  have henc : encodeMap (encodeMap appendString)
        (traverse env rootDir bucketName exclude calls1).resourcesMap
      = encodeMap (encodeMap appendString)
        (traverse env rootDir bucketName exclude calls2).resourcesMap := by
    rw [hm1, hm2]
    apply encodeMap_perm
    · exact (List.reverse_perm _).trans (hp.trans (List.reverse_perm _).symm)
    · exact ((List.reverse_perm _).map Prod.fst).nodup_iff.2 hdistinct
  simp only [main, Encode, encodeMap_singleton, henc]

/-- C10: when no call of the walk records an entry (it is a directory, or skipped
for another reason), standard output gets the document with the empty map,
followed by a newline, and nothing else. -/
theorem empty_walk_output (env : Env) (rootDir bucketName : GoString)
    (exclude : List GoString) (calls : List WalkCall)
    (h : ∀ call ∈ calls, call.info.IsDir = true ∨
      recordOf env rootDir bucketName exclude call = none) :
    (main env rootDir bucketName exclude calls).stdout
      = str "\x7b\"resource\":\x7b\"aws_s3_bucket_object\":\x7b\x7d\x7d\x7d\n" := by
  have hnone : calls.filterMap (recordOf env rootDir bucketName exclude) = [] := by
    rw [List.filterMap_eq_nil_iff]
    intro call hc
    rcases h call hc with hd | hn
    · exact recordOf_dir env rootDir bucketName exclude call hd
    · exact hn
  have hm := traverse_map env rootDir bucketName exclude calls
  rw [hnone] at hm
  simp only [main, hm, List.foldl_nil]
  decide

/-! ## The theorems at the directory `public` -/

/-- The pattern `*.svg` skips `a/c.svg`, the pattern `node_modules` skips
`lib/node_modules/x/index.js`, and the key `a/b.txt` recorded in the walk of
`public` is not matched by `*.svg`. -/
theorem excluded_entry_is_skipped_witness :
    (walkFn demoEnv (str "public") (str "mybucket") [str "*.svg"] emptyState
        (fileCall (str "public/a/c.svg"))).2.resourcesMap = emptyState.resourcesMap ∧
    (walkFn demoEnv (str "public") (str "mybucket") [str "node_modules"] emptyState
        (fileCall (str "public/lib/node_modules/x/index.js"))).2.resourcesMap
      = emptyState.resourcesMap ∧
    ¬ ∃ p ∈ [str "*.svg"],
      (ContainsRune p Separator = true ∧ (Match p (str "a/b.txt")).1 = true) ∨
      (ContainsRune p Separator = false ∧
        ∃ seg ∈ Split Separator (str "a/b.txt"), (Match p seg).1 = true) :=
  ⟨(excluded_entry_is_skipped demoEnv (str "public") (str "mybucket") [str "*.svg"]).1
      emptyState (fileCall (str "public/a/c.svg")) (by decide),
   (excluded_entry_is_skipped demoEnv (str "public") (str "mybucket") [str "node_modules"]).2.1
      emptyState (fileCall (str "public/lib/node_modules/x/index.js")) (by decide) (by decide),
   (excluded_entry_is_skipped demoEnv (str "public") (str "mybucket") [str "*.svg"]).2.2
      demoCalls (resourceName (str "a/b.txt")) demoDescriptor (str "a/b.txt") (by decide!) rfl⟩

/-- The dangling link `public/link` leaves the map as it was, and the empty file
`a/c.svg`, whose `Read` ends with `io.EOF`, is recorded. -/
theorem entry_failure_is_skipped_witness :
    (walkFn demoEnv (str "public") (str "mybucket") [] emptyState
        (fileCall (str "public/link"))).2.resourcesMap = emptyState.resourcesMap ∧
    GoMap.get (walkFn demoEnv (str "public") (str "mybucket") [] emptyState
        (fileCall (str "public/a/c.svg"))).2.resourcesMap (resourceName (str "a/c.svg"))
      = some (descriptor demoEnv (str "mybucket") (str "a/c.svg") (str "public/a/c.svg")
          (contentType demoEnv (str "a/c.svg") (str "public/a/c.svg")
            (fileBytes (1024 * 1024) [])) { IsDir := false, ModTime := 0 }) :=
  ⟨(entry_failure_is_skipped demoEnv (str "public") (str "mybucket") [] emptyState
      (fileCall (str "public/link"))).2.2.1 (Or.inr (Or.inr (Or.inl (by decide)))),
   (entry_failure_is_skipped demoEnv (str "public") (str "mybucket") [] emptyState
      (fileCall (str "public/a/c.svg"))).2.2.2 (str "a/c.svg") (str "public/a/c.svg")
      (regularFile [] 0) { IsDir := false, ModTime := 0 } []
      rfl (by decide) (by decide) rfl (by decide) rfl rfl (by decide)⟩

/-- The descriptor recorded for `a/b.txt` under the pattern `*.svg`; the key `x`
keeps its value. -/
theorem recorded_entry_descriptor_witness :
    (∃ d, GoMap.get (walkFn demoEnv (str "public") (str "mybucket") [str "*.svg"] emptyState
          (fileCall (str "public/a/b.txt"))).2.resourcesMap
          (hexString (sha1Sum (str "a/b.txt"))) = some d ∧
        GoMap.get d (str "bucket") = some (str "mybucket") ∧
        GoMap.get d (str "key") = some (str "a/b.txt") ∧
        GoMap.get d (str "source") = some (str "public/a/b.txt") ∧
        GoMap.get d (str "cache_control")
          = some (str "max-age=86400, stale-while-revalidate=3600") ∧
        GoMap.get d (str "etag")
          = some (str "$\x7bmd5(file(\"" ++ str "public/a/b.txt" ++ str "\"))\x7d")) ∧
    GoMap.get (walkFn demoEnv (str "public") (str "mybucket") [str "*.svg"] emptyState
        (fileCall (str "public/a/b.txt"))).2.resourcesMap (str "x")
      = GoMap.get emptyState.resourcesMap (str "x") :=
  match recorded_entry_descriptor demoEnv (str "public") (str "mybucket") [str "*.svg"]
      emptyState (fileCall (str "public/a/b.txt")) (str "a/b.txt") (str "public/a/b.txt")
      (regularFile (str "hello") 0) { IsDir := false, ModTime := 0 } (str "hello") none
      rfl (by decide) (by decide) rfl (by decide) rfl rfl (by decide) (Or.inl rfl) with
  | ⟨⟨d, h1, h2, h3, h4, h5, h6⟩, h7⟩ =>
    ⟨⟨d, h1, h2, h3, h4, h5, h6 (by decide)⟩, h7 (str "x") (by decide!)⟩

/-- The identifier of `a/b.txt` in the walk of `public` has forty digits, and it is
the identifier of `a/b.txt` in the walk of `/srv/public` for the bucket `other`. -/
theorem resource_name_is_sha1_of_key_witness :
    (resourceName (str "a/b.txt")).length = 40 ∧
    hexString (sha1Sum (str "a/b.txt")) = resourceName (str "a/b.txt") :=
  match resource_name_is_sha1_of_key demoEnv (str "public") (str "mybucket") [] demoCalls
      (resourceName (str "a/b.txt")) demoDescriptor (by decide!) with
  | ⟨⟨_, _, _, hlen, _⟩, hsame⟩ =>
    ⟨hlen, hsame (demoEnvAt (str "/srv/public")) (str "/srv/public") (str "other")
      [str "*.svg"] (demoCallsAt (str "/srv/public")) (hexString (sha1Sum (str "a/b.txt")))
      (demoDescriptorAt (str "/srv/public") (str "other")) (by decide!) rfl⟩

/-- The empty file `a/c.svg` of the walk of `public` is an SVG image. -/
theorem svg_content_type_witness :
    GoMap.get demoSvgDescriptor (str "content_type") = some (str "image/svg+xml") :=
  svg_content_type demoEnv (str "public") (str "mybucket") [] demoCalls
    (resourceName (str "a/c.svg")) demoSvgDescriptor (str "a/c.svg") (by decide!) rfl
    (by decide)

/-- The descriptor of `a/b.txt` in the walk of the absolute root `/srv/public` comes
from a call of that walk with the relative path `a/b.txt`, and its source is the
path resolved for that call. -/
theorem source_is_resolved_path_witness :
    ∃ call ∈ demoCallsAt (str "/srv/public"), ∃ r s,
      call.err = none ∧ call.info.IsDir = false ∧
      (demoEnvAt (str "/srv/public")).Rel (str "/srv/public") call.subpath = (r, none) ∧
      (demoEnvAt (str "/srv/public")).EvalSymlinks call.subpath = (s, none) ∧
      excluded [] r = false ∧
      resourceName (str "a/b.txt") = resourceName r ∧
      GoMap.get (demoDescriptorAt (str "/srv/public") (str "mybucket")) (str "key") = some r ∧
      GoMap.get (demoDescriptorAt (str "/srv/public") (str "mybucket")) (str "source")
        = some s :=
  source_is_resolved_path (demoEnvAt (str "/srv/public")) (str "/srv/public")
    (str "mybucket") [] (demoCallsAt (str "/srv/public")) (resourceName (str "a/b.txt"))
    (demoDescriptorAt (str "/srv/public") (str "mybucket")) (by decide!)

/-- The walk of `public` in reverse order writes the same bytes. -/
theorem output_independent_of_order_witness :
    (main demoEnv (str "public") (str "mybucket") [] demoCalls).stdout
      = (main demoEnv (str "public") (str "mybucket") [] demoCalls.reverse).stdout :=
  output_independent_of_order demoEnv (str "public") (str "mybucket") [] demoCalls
    demoCalls.reverse (List.reverse_perm demoCalls).symm (by decide!)

/-- A walk over the directories `public` and `public/a` alone writes the empty document. -/
theorem empty_walk_output_witness :
    (main demoEnv (str "public") (str "mybucket") []
        [dirCall (str "public"), dirCall (str "public/a")]).stdout
      = str "\x7b\"resource\":\x7b\"aws_s3_bucket_object\":\x7b\x7d\x7d\x7d\n" :=
  empty_walk_output demoEnv (str "public") (str "mybucket") []
    [dirCall (str "public"), dirCall (str "public/a")] (by decide)

end S3Dir
